import Mathlib

/-!
# Verification of the seven-point fundamental-matrix solver

Shallow embedding of `FundamentalMatrixSevenPointSolver::estimateModel`
(`src/include/solver_fundamental_matrix_seven_point.h`) over exact rational
arithmetic.  The two external collaborators of the routine — the Eigen
`JacobiSVD(..., ComputeFullV).matrixV()` applied to the 9×9 normal-equations
matrix, and `Eigen::PolynomialSolver<double,3>::realRoots` — are modelled as
abstract function parameters (`svdV`, `realRoots`): the repository contains
only their call sites, and every claim below is about how `estimateModel`
wires and post-processes their results.

The correspondence table is read through a raw pointer with a row stride
(`data_ptr[cols * sample_idx + k]`), so it is modelled as a total function
`ℕ → ℚ`; the sample-index pointer likewise as `ℕ → ℕ`.  The caller-supplied
output vector `models_` is threaded explicitly: the embedding takes the list
before the call and returns the pair (returned `bool`, list after the call).
-/

namespace SevenPoint

/-- A fundamental-matrix candidate: the 3×3 `descriptor` of a `Model`. -/
abbrev FMat := Matrix (Fin 3) (Fin 3) ℚ

/-- `std::numeric_limits<double>::epsilon()` = 2⁻⁵², exactly representable. -/
def machEps : ℚ := 1 / 2 ^ 52

/-- `sampleSize()` of the solver class. -/
def sampleSize : ℕ := 7

/-- One row of the linear system, built from `x0,y0,x1,y1` read at offset
`cols * idx` of the data pointer. -/
def coeffRow (data : ℕ → ℚ) (cols idx : ℕ) : Fin 9 → ℚ :=
  let offset := cols * idx
  let x0 := data offset
  let y0 := data (offset + 1)
  let x1 := data (offset + 2)
  let y1 := data (offset + 3)
  ![x1 * x0, x1 * y0, x1, y1 * x0, y1 * y0, y1, x0, y0, 1]

/-- The 7×9 coefficient matrix assembled in the first loop of `estimateModel`:
row `i` is the coefficient row of the table row `sample_[i]`. -/
def coefficients (data : ℕ → ℚ) (cols : ℕ) (sample : ℕ → ℕ) :
    Matrix (Fin 7) (Fin 9) ℚ :=
  Matrix.of fun i => coeffRow data cols (sample i)

/-- The matrix handed to the SVD: `coefficients.transpose() * coefficients`. -/
def normalMatrix (data : ℕ → ℚ) (cols : ℕ) (sample : ℕ → ℕ) :
    Matrix (Fin 9) (Fin 9) ℚ :=
  Matrix.transpose (coefficients data cols sample) * coefficients data cols sample

/-- The cubic coefficients `c[0..3]` computed by `estimateModel` (lines
93–119 of the header), transcribed verbatim; `f1` is the already-subtracted
basis vector (original `f1` minus `f2`). -/
def cubicCoeffs (f1 f2 : Fin 9 → ℚ) : Fin 4 → ℚ :=
  let t0 := f2 4 * f2 8 - f2 5 * f2 7
  let t1 := f2 3 * f2 8 - f2 5 * f2 6
  let t2 := f2 3 * f2 7 - f2 4 * f2 6
  let c0 := f2 0 * t0 - f2 1 * t1 + f2 2 * t2
  let c1 := f1 0 * t0 - f1 1 * t1 + f1 2 * t2 -
    f1 3 * (f2 1 * f2 8 - f2 2 * f2 7) +
    f1 4 * (f2 0 * f2 8 - f2 2 * f2 6) -
    f1 5 * (f2 0 * f2 7 - f2 1 * f2 6) +
    f1 6 * (f2 1 * f2 5 - f2 2 * f2 4) -
    f1 7 * (f2 0 * f2 5 - f2 2 * f2 3) +
    f1 8 * (f2 0 * f2 4 - f2 1 * f2 3)
  let u0 := f1 4 * f1 8 - f1 5 * f1 7
  let u1 := f1 3 * f1 8 - f1 5 * f1 6
  let u2 := f1 3 * f1 7 - f1 4 * f1 6
  let c2 := f2 0 * u0 - f2 1 * u1 + f2 2 * u2 -
    f2 3 * (f1 1 * f1 8 - f1 2 * f1 7) +
    f2 4 * (f1 0 * f1 8 - f1 2 * f1 6) -
    f2 5 * (f1 0 * f1 7 - f1 1 * f1 6) +
    f2 6 * (f1 1 * f1 5 - f1 2 * f1 4) -
    f2 7 * (f1 0 * f1 5 - f1 2 * f1 3) +
    f2 8 * (f1 0 * f1 4 - f1 1 * f1 3)
  let c3 := f1 0 * u0 - f1 1 * u1 + f1 2 * u2
  ![c0, c1, c2, c3]

/-- The body of the per-root loop: compute `s = f1[8]*root + f2[8]`; if
`|s| > eps` build the normalized candidate (`mu = 1/s`, `lambda = root*mu`,
`f[i] = f1[i]*lambda + f2[i]*mu`, entry (3,3) set to literal `1`), otherwise
emit nothing for this root. -/
def modelFromRoot (f1 f2 : Fin 9 → ℚ) (root : ℚ) : Option FMat :=
  let s := f1 8 * root + f2 8
  if machEps < |s| then
    let mu := 1 / s
    let lambda := root * mu
    some (Matrix.of
      ![![f1 0 * lambda + f2 0 * mu, f1 1 * lambda + f2 1 * mu,
          f1 2 * lambda + f2 2 * mu],
        ![f1 3 * lambda + f2 3 * mu, f1 4 * lambda + f2 4 * mu,
          f1 5 * lambda + f2 5 * mu],
        ![f1 6 * lambda + f2 6 * mu, f1 7 * lambda + f2 7 * mu, 1]])
  else none

/-- The per-root candidate exactly as the spec words it (§4.4, steps 1–3):
with `s = f1[8]·λ + f2[8]`, skip the root when `|s| ≤` machine epsilon;
otherwise the first 8 row-major entries are `f1[i]·(λ·(1/s)) + f2[i]·(1/s)`
and entry (3,3) is exactly 1.  Stated from the words of the spec, to be
compared against `modelFromRoot`, which is transcribed from the code. -/
def specRootCandidate (f1 f2 : Fin 9 → ℚ) (lam : ℚ) : Option FMat :=
  let s := f1 8 * lam + f2 8
  if |s| ≤ machEps then none
  else
    some (Matrix.of
      ![![f1 0 * (lam * (1 / s)) + f2 0 * (1 / s),
          f1 1 * (lam * (1 / s)) + f2 1 * (1 / s),
          f1 2 * (lam * (1 / s)) + f2 2 * (1 / s)],
        ![f1 3 * (lam * (1 / s)) + f2 3 * (1 / s),
          f1 4 * (lam * (1 / s)) + f2 4 * (1 / s),
          f1 5 * (lam * (1 / s)) + f2 5 * (1 / s)],
        ![f1 6 * (lam * (1 / s)) + f2 6 * (1 / s),
          f1 7 * (lam * (1 / s)) + f2 7 * (1 / s), 1]])

/-- The tail of `estimateModel` once the basis `f1` (already subtracted) and
`f2` are fixed: form the cubic, ask the root finder, fail when the root count
is outside `[1,3]`, otherwise push one candidate per root that survives the
normalization test. -/
def estimateFromBasis (realRoots : (Fin 4 → ℚ) → List ℚ)
    (f1 f2 : Fin 9 → ℚ) (models : List FMat) : Bool × List FMat :=
  let c := cubicCoeffs f1 f2
  let roots := realRoots c
  let n := roots.length
  if n < 1 ∨ 3 < n then (false, models)
  else (true, models ++ roots.filterMap (modelFromRoot f1 f2))

/-- Column 8 (zero-based) of the `V` matrix of the SVD of the normal-equations
matrix: the vector `f2` of the source. -/
def basisF2 (svdV : Matrix (Fin 9) (Fin 9) ℚ → Matrix (Fin 9) (Fin 9) ℚ)
    (data : ℕ → ℚ) (cols : ℕ) (sample : ℕ → ℕ) : Fin 9 → ℚ :=
  fun i => svdV (normalMatrix data cols sample) i 8

/-- Column 7 (zero-based) of the `V` matrix: the original `f1` of the source,
before the in-place subtraction. -/
def basisF1orig (svdV : Matrix (Fin 9) (Fin 9) ℚ → Matrix (Fin 9) (Fin 9) ℚ)
    (data : ℕ → ℚ) (cols : ℕ) (sample : ℕ → ℕ) : Fin 9 → ℚ :=
  fun i => svdV (normalMatrix data cols sample) i 7

/-- `f1` after the loop `for i: f1[i] -= f2[i]`. -/
def basisF1 (svdV : Matrix (Fin 9) (Fin 9) ℚ → Matrix (Fin 9) (Fin 9) ℚ)
    (data : ℕ → ℚ) (cols : ℕ) (sample : ℕ → ℕ) : Fin 9 → ℚ :=
  fun i => basisF1orig svdV data cols sample i - basisF2 svdV data cols sample i

/-- The list of real roots the solver works through, for a given root-finder
collaborator. -/
def pipelineRoots (svdV : Matrix (Fin 9) (Fin 9) ℚ → Matrix (Fin 9) (Fin 9) ℚ)
    (realRoots : (Fin 4 → ℚ) → List ℚ)
    (data : ℕ → ℚ) (cols : ℕ) (sample : ℕ → ℕ) : List ℚ :=
  realRoots (cubicCoeffs (basisF1 svdV data cols sample)
    (basisF2 svdV data cols sample))

/-- `estimateModel` itself: the whole routine, for `sample_number_ = 7` (the
`sampleSize()` of the solver; the matrix is allocated with `sample_number_` rows
and the assembly loop always fills exactly rows 0..6).  Returns the `bool`
result together with the state of `models_` after the call. -/
def estimateModel (svdV : Matrix (Fin 9) (Fin 9) ℚ → Matrix (Fin 9) (Fin 9) ℚ)
    (realRoots : (Fin 4 → ℚ) → List ℚ)
    (data : ℕ → ℚ) (cols : ℕ) (sample : ℕ → ℕ)
    (models : List FMat) : Bool × List FMat :=
  estimateFromBasis realRoots (basisF1 svdV data cols sample)
    (basisF2 svdV data cols sample) models

/-- The models a call appends (the output list when starting from `[]`). -/
def appendedModels (svdV : Matrix (Fin 9) (Fin 9) ℚ → Matrix (Fin 9) (Fin 9) ℚ)
    (realRoots : (Fin 4 → ℚ) → List ℚ)
    (data : ℕ → ℚ) (cols : ℕ) (sample : ℕ → ℕ) : List FMat :=
  (estimateModel svdV realRoots data cols sample []).2

/-- The epipolar residual `[x1,y1,1]·F·[x0,y0,1]ᵗ` of a candidate `F` at the
table row `idx`. -/
def epipolarResidual (data : ℕ → ℚ) (cols idx : ℕ) (F : FMat) : ℚ :=
  let offset := cols * idx
  let x0 := data offset
  let y0 := data (offset + 1)
  let x1 := data (offset + 2)
  let y1 := data (offset + 3)
  x1 * (F 0 0 * x0 + F 0 1 * y0 + F 0 2) +
    y1 * (F 1 0 * x0 + F 1 1 * y0 + F 1 2) +
    (F 2 0 * x0 + F 2 1 * y0 + F 2 2)

/-- Reshape a flat 9-vector into a 3×3 matrix, row-major. -/
def reshape3x3 (f : Fin 9 → ℚ) : FMat :=
  Matrix.of ![![f 0, f 1, f 2], ![f 3, f 4, f 5], ![f 6, f 7, f 8]]

/-- Flatten a 3×3 matrix into a 9-vector, row-major. -/
def flatten (F : FMat) : Fin 9 → ℚ :=
  ![F 0 0, F 0 1, F 0 2, F 1 0, F 1 1, F 1 2, F 2 0, F 2 1, F 2 2]

/-- Evaluate the cubic `c0 + c1·λ + c2·λ² + c3·λ³`. -/
def evalCubic (c : Fin 4 → ℚ) (lam : ℚ) : ℚ :=
  c 0 + c 1 * lam + c 2 * lam ^ 2 + c 3 * lam ^ 3

/-!
### Concrete instantiation used to witness the theorems

Seven correspondences with `x1 = x0` and `y1 = y0 + 1`.  Both
`Wg = (0,0,1,0,0,0,-1,0,0)` (encoding `x1 - x0 = 0`) and
`Wf = (0,0,0,0,0,-1,0,1,1)` (encoding `-y1 + y0 + 1 = 0`) are exact null
vectors of the assembled coefficient matrix, so a collaborator SVD whose `V`
has `Wg` as column 7 and `Wf` as column 8 is consistent with the contract the code
assumes for this input.
-/

/-- Witness table, row-major with stride 4:
rows `(x0,y0,x1,y1)` with `x1 = x0`, `y1 = y0 + 1`. -/
def Wdata (n : ℕ) : ℚ :=
  ([0, 0, 0, 1,  1, 0, 1, 1,  2, 0, 2, 1,  0, 1, 0, 2,
    1, 1, 1, 2,  2, 1, 2, 2,  3, 0, 3, 1] : List ℚ).getD n 0

/-- Same seven rows as `Wdata` but laid out with stride 5: a junk fifth
column, and different contents beyond the table. -/
def Wdata5 (n : ℕ) : ℚ :=
  ([0, 0, 0, 1, 9,  1, 0, 1, 1, 9,  2, 0, 2, 1, 9,  0, 1, 0, 2, 9,
    1, 1, 1, 2, 9,  2, 1, 2, 2, 9,  3, 0, 3, 1, 9] : List ℚ).getD n 7

/-- Witness sample: the identity indexing. -/
def Wsample (n : ℕ) : ℕ := n

/-- A sample pointer agreeing with `Wsample` on indices 0..6 only. -/
def Wsample2 (n : ℕ) : ℕ := if n < 7 then n else 42

/-- First null vector handed out by the witness SVD (column 7 of `V`):
`(0,0,1,0,0,0,-1,0,0)`. -/
def Wg : Fin 9 → ℚ := fun i => if i.val = 2 then 1 else if i.val = 6 then -1 else 0

/-- Second null vector handed out by the witness SVD (column 8 of `V`):
`(0,0,0,0,0,-1,0,1,1)`. -/
def Wf : Fin 9 → ℚ := fun i => if i.val = 5 then -1 else if 7 ≤ i.val then 1 else 0

/-- Witness SVD collaborator: a constant `V` whose columns 7 and 8 are `Wg`
and `Wf`. -/
def Wsvd (_ : Matrix (Fin 9) (Fin 9) ℚ) : Matrix (Fin 9) (Fin 9) ℚ :=
  Matrix.of fun i j => if j = 7 then Wg i else if j = 8 then Wf i else 0

/-- Witness root finder returning the single root 0. -/
def WrootsOne (_ : Fin 4 → ℚ) : List ℚ := [0]

/-- Witness root finder returning roots 0 and 1 (the root 1 has
normalization scalar exactly 0 for the witness basis). -/
def WrootsTwo (_ : Fin 4 → ℚ) : List ℚ := [0, 1]

/-- Witness root finder returning no real root. -/
def WrootsNone (_ : Fin 4 → ℚ) : List ℚ := []

/-- A pre-existing entry of the output list supplied by the caller. -/
def Wm0 : FMat := Matrix.of ![![5, 0, 0], ![0, 5, 0], ![0, 0, 5]]

/-!
## Shared lemmas
-/

/-- Entry lookup in a length-4 vector literal, one lemma per index. -/
lemma vec4at0 (a b c d : ℚ) : ![a, b, c, d] 0 = a := rfl

lemma vec4at1 (a b c d : ℚ) : ![a, b, c, d] 1 = b := rfl

lemma vec4at2 (a b c d : ℚ) : ![a, b, c, d] 2 = c := rfl

lemma vec4at3 (a b c d : ℚ) : ![a, b, c, d] 3 = d := rfl

/-- Entry lookup in a length-9 vector literal, one lemma per index. -/
lemma vec9at0 (a b c d e f g h i : ℚ) : ![a, b, c, d, e, f, g, h, i] 0 = a := rfl

lemma vec9at1 (a b c d e f g h i : ℚ) : ![a, b, c, d, e, f, g, h, i] 1 = b := rfl

lemma vec9at2 (a b c d e f g h i : ℚ) : ![a, b, c, d, e, f, g, h, i] 2 = c := rfl

lemma vec9at3 (a b c d e f g h i : ℚ) : ![a, b, c, d, e, f, g, h, i] 3 = d := rfl

lemma vec9at4 (a b c d e f g h i : ℚ) : ![a, b, c, d, e, f, g, h, i] 4 = e := rfl

lemma vec9at5 (a b c d e f g h i : ℚ) : ![a, b, c, d, e, f, g, h, i] 5 = f := rfl

lemma vec9at6 (a b c d e f g h i : ℚ) : ![a, b, c, d, e, f, g, h, i] 6 = g := rfl

lemma vec9at7 (a b c d e f g h i : ℚ) : ![a, b, c, d, e, f, g, h, i] 7 = h := rfl

lemma vec9at8 (a b c d e f g h i : ℚ) : ![a, b, c, d, e, f, g, h, i] 8 = i := rfl

/-- The determinant of `reshape3x3 (λ·f1 + f2)` is the cubic with the
coefficients the code computes. -/
lemma det_reshape_affine (f1 f2 : Fin 9 → ℚ) (lam : ℚ) :
    (reshape3x3 (fun i => lam * f1 i + f2 i)).det = evalCubic (cubicCoeffs f1 f2) lam := by
  simp only [reshape3x3, Matrix.det_fin_three, cubicCoeffs, evalCubic, Matrix.of_apply,
    Matrix.cons_val_zero, Matrix.cons_val_one, Matrix.head_cons, Matrix.cons_val_two,
    Matrix.tail_cons, Matrix.head_fin_const, Matrix.cons_val_fin_one,
    vec4at0, vec4at1, vec4at2, vec4at3,
    vec9at0, vec9at1, vec9at2, vec9at3, vec9at4, vec9at5, vec9at6, vec9at7, vec9at8]
  ring

/-- The output list of `estimateFromBasis` is the input list plus whatever the
same call starting from the empty list produces. -/
lemma estimateFromBasis_append (rr : (Fin 4 → ℚ) → List ℚ) (f1 f2 : Fin 9 → ℚ)
    (models : List FMat) :
    (estimateFromBasis rr f1 f2 models).2 = models ++ (estimateFromBasis rr f1 f2 []).2 := by
  simp only [estimateFromBasis]
  split <;> simp

/-- The returned flag of `estimateFromBasis` does not depend on the incoming
list. -/
lemma estimateFromBasis_fst (rr : (Fin 4 → ℚ) → List ℚ) (f1 f2 : Fin 9 → ℚ)
    (models : List FMat) :
    (estimateFromBasis rr f1 f2 models).1 = (estimateFromBasis rr f1 f2 []).1 := by
  simp only [estimateFromBasis]
  split <;> rfl

/-- The flag is `false` exactly when the root count is `0` or above `3`. -/
lemma estimateFromBasis_false_iff (rr : (Fin 4 → ℚ) → List ℚ) (f1 f2 : Fin 9 → ℚ)
    (models : List FMat) :
    (estimateFromBasis rr f1 f2 models).1 = false ↔
      ((rr (cubicCoeffs f1 f2)).length = 0 ∨ 3 < (rr (cubicCoeffs f1 f2)).length) := by
  simp only [estimateFromBasis]
  split <;> simp_all

/-- When the call fails nothing is produced. -/
lemma estimateFromBasis_false_nil (rr : (Fin 4 → ℚ) → List ℚ) (f1 f2 : Fin 9 → ℚ)
    (models : List FMat) (h : (estimateFromBasis rr f1 f2 models).1 = false) :
    (estimateFromBasis rr f1 f2 []).2 = [] := by
  simp only [estimateFromBasis] at h ⊢
  by_cases hcond :
      ((rr (cubicCoeffs f1 f2)).length < 1 ∨ 3 < (rr (cubicCoeffs f1 f2)).length)
  · rw [if_pos hcond]
  · rw [if_neg hcond] at h
    simp at h

/-- `estimateModel` only appends: its output list is the incoming list
followed by `appendedModels`. -/
lemma estimateModel_snd (svdV : Matrix (Fin 9) (Fin 9) ℚ → Matrix (Fin 9) (Fin 9) ℚ)
    (rr : (Fin 4 → ℚ) → List ℚ) (data : ℕ → ℚ) (cols : ℕ) (sample : ℕ → ℕ)
    (models : List FMat) :
    (estimateModel svdV rr data cols sample models).2 =
      models ++ appendedModels svdV rr data cols sample :=
  estimateFromBasis_append rr _ _ models

/-!
## The claims
-/

/-- Claim C1: `estimateModel` returns `success = false` iff the number of real
roots handed back by the root finder is `0` or exceeds `3`; with 1 to 3 real
roots it returns `true`. -/
theorem claim1_success_iff (svdV : Matrix (Fin 9) (Fin 9) ℚ → Matrix (Fin 9) (Fin 9) ℚ)
    (rr : (Fin 4 → ℚ) → List ℚ) (data : ℕ → ℚ) (cols : ℕ) (sample : ℕ → ℕ)
    (models : List FMat) :
    (estimateModel svdV rr data cols sample models).1 = false ↔
      ((pipelineRoots svdV rr data cols sample).length = 0 ∨
        3 < (pipelineRoots svdV rr data cols sample).length) :=
  estimateFromBasis_false_iff rr _ _ models

/-- Claim C3: with `f1` the already-subtracted basis vector, the four scalars
computed by the cofactor expansion are exactly the coefficients of
`det (reshape3x3 (λ·f1 + f2))` as a polynomial in `λ`: `c[0]` the constant
term through `c[3]` the coefficient of `λ³`. -/
theorem claim3_cubic_coefficients (f1 f2 : Fin 9 → ℚ) (lam : ℚ) :
    (reshape3x3 (fun i => lam * f1 i + f2 i)).det =
      cubicCoeffs f1 f2 0 + cubicCoeffs f1 f2 1 * lam +
        cubicCoeffs f1 f2 2 * lam ^ 2 + cubicCoeffs f1 f2 3 * lam ^ 3 :=
  det_reshape_affine f1 f2 lam

/-- Claim C6: the coefficient matrix has 7 rows and 9 columns (its type), and
row `i` is `(x1·x0, x1·y0, x1, y1·x0, y1·y0, y1, x0, y0, 1)` where
`x0,y0,x1,y1` are read at offsets `0,1,2,3` from position `cols · sample_[i]`
of the table. -/
theorem claim6_coefficient_rows (data : ℕ → ℚ) (cols : ℕ) (sample : ℕ → ℕ)
    (i : Fin 7) :
    (fun j => coefficients data cols sample i j) =
      ![data (cols * sample i + 2) * data (cols * sample i),
        data (cols * sample i + 2) * data (cols * sample i + 1),
        data (cols * sample i + 2),
        data (cols * sample i + 3) * data (cols * sample i),
        data (cols * sample i + 3) * data (cols * sample i + 1),
        data (cols * sample i + 3),
        data (cols * sample i),
        data (cols * sample i + 1),
        1] :=
  rfl

/-- Claim C7: the basis vectors are columns 7 and 8 (zero-based) of the `V`
returned by the SVD collaborator on the normal-equations matrix `AᵗA`
(`f1` column 7, `f2` column 8), `f1` is then overwritten with `f1 − f2`
element-wise, and the rest of the routine consumes exactly that pair.  (That
those columns carry the two smallest singular values is the documented
ordering of the Eigen collaborator, which is abstract here.) -/
theorem claim7_nullspace_basis (svdV : Matrix (Fin 9) (Fin 9) ℚ → Matrix (Fin 9) (Fin 9) ℚ)
    (rr : (Fin 4 → ℚ) → List ℚ) (data : ℕ → ℚ) (cols : ℕ) (sample : ℕ → ℕ)
    (models : List FMat) :
    basisF1orig svdV data cols sample =
        (fun i => svdV (Matrix.transpose (coefficients data cols sample) *
          coefficients data cols sample) i 7) ∧
      basisF2 svdV data cols sample =
        (fun i => svdV (Matrix.transpose (coefficients data cols sample) *
          coefficients data cols sample) i 8) ∧
      basisF1 svdV data cols sample =
        (fun i => basisF1orig svdV data cols sample i -
          basisF2 svdV data cols sample i) ∧
      estimateModel svdV rr data cols sample models =
        estimateFromBasis rr (basisF1 svdV data cols sample)
          (basisF2 svdV data cols sample) models :=
  ⟨rfl, rfl, rfl, rfl⟩

/-- Claim C9: the call never mutates the table (the embedding reads it as a
pure function) and only appends to the output list — the list after the call
is the list before the call followed by the appended candidates, and on
`success = false` nothing is appended. -/
theorem claim9_frame_effects (svdV : Matrix (Fin 9) (Fin 9) ℚ → Matrix (Fin 9) (Fin 9) ℚ)
    (rr : (Fin 4 → ℚ) → List ℚ) (data : ℕ → ℚ) (cols : ℕ) (sample : ℕ → ℕ)
    (models : List FMat) :
    (estimateModel svdV rr data cols sample models).2 =
        models ++ appendedModels svdV rr data cols sample ∧
      ((estimateModel svdV rr data cols sample models).1 = false →
        appendedModels svdV rr data cols sample = []) := by
  refine ⟨estimateModel_snd svdV rr data cols sample models, fun h => ?_⟩
  exact estimateFromBasis_false_nil rr _ _ models h

/-- Witness for C9 at a concrete failing input: the root finder returns no
root, the flag is `false`, and the pre-existing entry is all that remains. -/
theorem claim9_frame_effects_witness :
    (estimateModel Wsvd WrootsNone Wdata 4 Wsample [Wm0]).2 =
        [Wm0] ++ appendedModels Wsvd WrootsNone Wdata 4 Wsample ∧
      ((estimateModel Wsvd WrootsNone Wdata 4 Wsample [Wm0]).1 = false →
        appendedModels Wsvd WrootsNone Wdata 4 Wsample = []) :=
  claim9_frame_effects Wsvd WrootsNone Wdata 4 Wsample [Wm0]

/-- The per-root branch of the code agrees with the per-root prescription of
the spec at every root. -/
lemma modelFromRoot_eq_spec (f1 f2 : Fin 9 → ℚ) :
    modelFromRoot f1 f2 = specRootCandidate f1 f2 := by
  funext lam
  simp only [modelFromRoot, specRootCandidate]
  rcases le_or_lt |f1 8 * lam + f2 8| machEps with h | h
  · rw [if_neg (not_lt.mpr h), if_pos h]
  · rw [if_pos h, if_neg (not_le.mpr h)]

/-- On success the list produced from an empty start is the `filterMap` of the
per-root body over the returned roots. -/
lemma estimateFromBasis_true_snd (rr : (Fin 4 → ℚ) → List ℚ) (f1 f2 : Fin 9 → ℚ)
    (h : (estimateFromBasis rr f1 f2 []).1 = true) :
    (estimateFromBasis rr f1 f2 []).2 =
      (rr (cubicCoeffs f1 f2)).filterMap (modelFromRoot f1 f2) := by
  simp only [estimateFromBasis] at h ⊢
  by_cases hcond :
      ((rr (cubicCoeffs f1 f2)).length < 1 ∨ 3 < (rr (cubicCoeffs f1 f2)).length)
  · rw [if_pos hcond] at h
    simp at h
  · rw [if_neg hcond]
    simp

/-- Claim C4: for each real root, when `|s| ≤` machine epsilon no candidate is
appended, and otherwise exactly one candidate is appended, with first 8
row-major entries `f1[i]·(λ·(1/s)) + f2[i]·(1/s)` and entry (3,3) exactly 1 —
on success the output is the incoming list followed by exactly the per-root
candidates the spec prescribes, in root order. -/
theorem claim4_per_root_candidates
    (svdV : Matrix (Fin 9) (Fin 9) ℚ → Matrix (Fin 9) (Fin 9) ℚ)
    (rr : (Fin 4 → ℚ) → List ℚ) (data : ℕ → ℚ) (cols : ℕ) (sample : ℕ → ℕ)
    (models : List FMat)
    (hsucc : (estimateModel svdV rr data cols sample models).1 = true) :
    (estimateModel svdV rr data cols sample models).2 =
      models ++ (pipelineRoots svdV rr data cols sample).filterMap
        (specRootCandidate (basisF1 svdV data cols sample)
          (basisF2 svdV data cols sample)) := by
  rw [estimateModel_snd svdV rr data cols sample models]
  have h1 : (estimateFromBasis rr (basisF1 svdV data cols sample)
      (basisF2 svdV data cols sample) []).1 = true := by
    rw [← estimateFromBasis_fst rr _ _ models]
    exact hsucc
  have h2 := estimateFromBasis_true_snd rr _ _ h1
  rw [← modelFromRoot_eq_spec]
  exact congrArg (models ++ ·) h2

/-- Witness for C4 at a concrete successful input with two roots, one kept
(root 0, `s = 1`) and one skipped (root 1, `s = 0`). -/
theorem claim4_per_root_candidates_witness :
    (estimateModel Wsvd WrootsTwo Wdata 4 Wsample [Wm0]).2 =
      [Wm0] ++ (pipelineRoots Wsvd WrootsTwo Wdata 4 Wsample).filterMap
        (specRootCandidate (basisF1 Wsvd Wdata 4 Wsample)
          (basisF2 Wsvd Wdata 4 Wsample)) :=
  claim4_per_root_candidates Wsvd WrootsTwo Wdata 4 Wsample [Wm0]
    (by norm_num [estimateModel, estimateFromBasis, WrootsTwo])

/-- `filterMap` keeps as many elements as the filter by definedness. -/
lemma length_filterMap_eq (g : ℚ → Option FMat) (l : List ℚ) :
    (l.filterMap g).length = (l.filter (fun a => (g a).isSome)).length := by
  induction l with
  | nil => rfl
  | cons a l ih => cases h : g a <;> simp [List.filterMap_cons, List.filter_cons, h, ih]

/-- The per-root body is defined exactly when the normalization scalar beats
machine epsilon in magnitude. -/
lemma modelFromRoot_isSome (f1 f2 : Fin 9 → ℚ) (lam : ℚ) :
    (modelFromRoot f1 f2 lam).isSome = decide (machEps < |f1 8 * lam + f2 8|) := by
  by_cases h : machEps < |f1 8 * lam + f2 8|
  · rw [modelFromRoot, if_pos h]
    simp [h]
  · rw [modelFromRoot, if_neg h]
    simp [h]

/-- The per-root body skips exactly when the normalization scalar is at most
machine epsilon in magnitude. -/
lemma modelFromRoot_eq_none_iff (f1 f2 : Fin 9 → ℚ) (lam : ℚ) :
    modelFromRoot f1 f2 lam = none ↔ |f1 8 * lam + f2 8| ≤ machEps := by
  by_cases h : machEps < |f1 8 * lam + f2 8|
  · rw [modelFromRoot, if_pos h]
    simp [not_lt.mp, h, not_le.mpr h]
  · rw [modelFromRoot, if_neg h]
    simp [not_lt.mp h]

/-- Claim C5: on success the appended count is at most 3 and equals the number
of real roots whose normalization scalar exceeds machine epsilon in
magnitude; zero candidates are appended exactly when 1–3 real roots exist but
every one of them was skipped by the normalization test. -/
theorem claim5_candidate_count
    (svdV : Matrix (Fin 9) (Fin 9) ℚ → Matrix (Fin 9) (Fin 9) ℚ)
    (rr : (Fin 4 → ℚ) → List ℚ) (data : ℕ → ℚ) (cols : ℕ) (sample : ℕ → ℕ)
    (models : List FMat)
    (hsucc : (estimateModel svdV rr data cols sample models).1 = true) :
    (appendedModels svdV rr data cols sample).length =
        ((pipelineRoots svdV rr data cols sample).filter (fun lam =>
          machEps < |basisF1 svdV data cols sample 8 * lam +
            basisF2 svdV data cols sample 8|)).length ∧
      (appendedModels svdV rr data cols sample).length ≤ 3 ∧
      ((appendedModels svdV rr data cols sample).length = 0 ↔
        (1 ≤ (pipelineRoots svdV rr data cols sample).length ∧
          (pipelineRoots svdV rr data cols sample).length ≤ 3 ∧
          ∀ lam ∈ pipelineRoots svdV rr data cols sample,
            |basisF1 svdV data cols sample 8 * lam +
              basisF2 svdV data cols sample 8| ≤ machEps)) := by
  have h1 : (estimateFromBasis rr (basisF1 svdV data cols sample)
      (basisF2 svdV data cols sample) []).1 = true := by
    rw [← estimateFromBasis_fst rr _ _ models]
    exact hsucc
  have happ : appendedModels svdV rr data cols sample =
      (pipelineRoots svdV rr data cols sample).filterMap
        (modelFromRoot (basisF1 svdV data cols sample)
          (basisF2 svdV data cols sample)) :=
    estimateFromBasis_true_snd rr _ _ h1
  have hbounds : ¬((pipelineRoots svdV rr data cols sample).length = 0 ∨
      3 < (pipelineRoots svdV rr data cols sample).length) := by
    intro hcon
    have hfalse := (estimateFromBasis_false_iff rr (basisF1 svdV data cols sample)
      (basisF2 svdV data cols sample) []).mpr hcon
    rw [h1] at hfalse
    cases hfalse
  refine ⟨?_, ?_, ?_⟩
  · rw [happ, length_filterMap_eq]
    congr 1
    apply List.filter_congr
    intro lam _
    rw [modelFromRoot_isSome]
  · rw [happ]
    have hle := List.length_filterMap_le
      (modelFromRoot (basisF1 svdV data cols sample) (basisF2 svdV data cols sample))
      (pipelineRoots svdV rr data cols sample)
    omega
  · rw [happ, List.length_eq_zero, List.filterMap_eq_nil_iff]
    constructor
    · intro hall
      refine ⟨by omega, by omega, fun lam hm => ?_⟩
      exact (modelFromRoot_eq_none_iff _ _ lam).mp (hall lam hm)
    · intro hall
      intro lam hm
      exact (modelFromRoot_eq_none_iff _ _ lam).mpr (hall.2.2 lam hm)

/-- Witness for C5 at a concrete successful input with two roots, one kept
and one skipped: one candidate appended. -/
theorem claim5_candidate_count_witness :
    (appendedModels Wsvd WrootsTwo Wdata 4 Wsample).length =
        ((pipelineRoots Wsvd WrootsTwo Wdata 4 Wsample).filter (fun lam =>
          machEps < |basisF1 Wsvd Wdata 4 Wsample 8 * lam +
            basisF2 Wsvd Wdata 4 Wsample 8|)).length ∧
      (appendedModels Wsvd WrootsTwo Wdata 4 Wsample).length ≤ 3 ∧
      ((appendedModels Wsvd WrootsTwo Wdata 4 Wsample).length = 0 ↔
        (1 ≤ (pipelineRoots Wsvd WrootsTwo Wdata 4 Wsample).length ∧
          (pipelineRoots Wsvd WrootsTwo Wdata 4 Wsample).length ≤ 3 ∧
          ∀ lam ∈ pipelineRoots Wsvd WrootsTwo Wdata 4 Wsample,
            |basisF1 Wsvd Wdata 4 Wsample 8 * lam +
              basisF2 Wsvd Wdata 4 Wsample 8| ≤ machEps)) :=
  claim5_candidate_count Wsvd WrootsTwo Wdata 4 Wsample []
    (by norm_num [estimateModel, estimateFromBasis, WrootsTwo])

/-- Two calls whose seven sampled rows carry the same four values build the
same coefficient matrix, whatever the strides, the indices and the rest of
memory do. -/
lemma coefficients_ext (data data2 : ℕ → ℚ) (cols cols2 : ℕ)
    (sample sample2 : ℕ → ℕ)
    (hd : ∀ i : Fin 7,
      data (cols * sample i) = data2 (cols2 * sample2 i) ∧
      data (cols * sample i + 1) = data2 (cols2 * sample2 i + 1) ∧
      data (cols * sample i + 2) = data2 (cols2 * sample2 i + 2) ∧
      data (cols * sample i + 3) = data2 (cols2 * sample2 i + 3)) :
    coefficients data cols sample = coefficients data2 cols2 sample2 := by
  funext i j
  obtain ⟨h0, h1, h2, h3⟩ := hd i
  show coeffRow data cols (sample i) j = coeffRow data2 cols2 (sample2 i) j
  simp only [coeffRow, h0, h1, h2, h3]

/-- Claim C10: the routine is deterministic and reads only `sample_[0..6]` and
the four values of each of those seven table rows: two invocations agreeing on
them — even with different strides, different extra columns, different other
rows or different memory elsewhere — return the same flag and append the same
candidate sequence. -/
theorem claim10_input_dependency
    (svdV : Matrix (Fin 9) (Fin 9) ℚ → Matrix (Fin 9) (Fin 9) ℚ)
    (rr : (Fin 4 → ℚ) → List ℚ) (data data2 : ℕ → ℚ) (cols cols2 : ℕ)
    (sample sample2 : ℕ → ℕ) (models : List FMat)
    (hs : ∀ i : Fin 7, sample i = sample2 i)
    (hd : ∀ i : Fin 7,
      data (cols * sample i) = data2 (cols2 * sample2 i) ∧
      data (cols * sample i + 1) = data2 (cols2 * sample2 i + 1) ∧
      data (cols * sample i + 2) = data2 (cols2 * sample2 i + 2) ∧
      data (cols * sample i + 3) = data2 (cols2 * sample2 i + 3)) :
    estimateModel svdV rr data cols sample models =
        estimateModel svdV rr data2 cols2 sample2 models ∧
      appendedModels svdV rr data cols sample =
        appendedModels svdV rr data2 cols2 sample2 := by
  have hc := coefficients_ext data data2 cols cols2 sample sample2 hd
  have hb1 : basisF1 svdV data cols sample = basisF1 svdV data2 cols2 sample2 := by
    unfold basisF1 basisF1orig basisF2 normalMatrix
    rw [hc]
  have hb2 : basisF2 svdV data cols sample = basisF2 svdV data2 cols2 sample2 := by
    unfold basisF2 normalMatrix
    rw [hc]
  constructor
  · unfold estimateModel
    rw [hb1, hb2]
  · unfold appendedModels estimateModel
    rw [hb1, hb2]

/-- Witness for C10: same seven rows stored with stride 4 and stride 5, junk
fifth column, different table default, sample pointers agreeing only below
index 7 — identical results. -/
theorem claim10_input_dependency_witness :
    estimateModel Wsvd WrootsOne Wdata 4 Wsample [Wm0] =
        estimateModel Wsvd WrootsOne Wdata5 5 Wsample2 [Wm0] ∧
      appendedModels Wsvd WrootsOne Wdata 4 Wsample =
        appendedModels Wsvd WrootsOne Wdata5 5 Wsample2 :=
  claim10_input_dependency Wsvd WrootsOne Wdata Wdata5 4 5 Wsample Wsample2 [Wm0]
    (fun i => by fin_cases i <;> rfl)
    (fun i => by fin_cases i <;> exact ⟨rfl, rfl, rfl, rfl⟩)

/-- Numeral form of a once-applied `Fin.succ`, used to line up sum expansions. -/
lemma finsv1 : Fin.succ (0 : Fin 8) = (1 : Fin 9) := rfl

lemma finsv2 : Fin.succ (Fin.succ (0 : Fin 7)) = (2 : Fin 9) := rfl

lemma finsv3 : Fin.succ (Fin.succ (Fin.succ (0 : Fin 6))) = (3 : Fin 9) := rfl

lemma finsv4 : Fin.succ (Fin.succ (Fin.succ (Fin.succ (0 : Fin 5)))) = (4 : Fin 9) := rfl

lemma finsv5 :
    Fin.succ (Fin.succ (Fin.succ (Fin.succ (Fin.succ (0 : Fin 4))))) = (5 : Fin 9) := rfl

lemma finsv6 :
    Fin.succ (Fin.succ (Fin.succ (Fin.succ (Fin.succ (Fin.succ (0 : Fin 3)))))) =
      (6 : Fin 9) := rfl

lemma finsv7 :
    Fin.succ (Fin.succ (Fin.succ (Fin.succ (Fin.succ (Fin.succ (Fin.succ (0 : Fin 2))))))) =
      (7 : Fin 9) := rfl

lemma finsv8 :
    Fin.succ (Fin.succ (Fin.succ (Fin.succ (Fin.succ (Fin.succ (Fin.succ
      (Fin.succ (0 : Fin 1)))))))) = (8 : Fin 9) := rfl

set_option maxHeartbeats 1000000 in
/-- Exact-arithmetic heart of the epipolar claim: when a row annihilates both
basis vectors, it annihilates every candidate the per-root branch builds from
them. -/
lemma epipolar_zero_of_null (data : ℕ → ℚ) (cols idx : ℕ) (f1o f2 : Fin 9 → ℚ)
    (root : ℚ) (F : FMat)
    (hF : modelFromRoot (fun i => f1o i - f2 i) f2 root = some F)
    (h1 : Matrix.dotProduct (coeffRow data cols idx) f1o = 0)
    (h2 : Matrix.dotProduct (coeffRow data cols idx) f2 = 0) :
    epipolarResidual data cols idx F = 0 := by
  simp only [modelFromRoot] at hF
  by_cases hc : machEps < |(f1o 8 - f2 8) * root + f2 8|
  · rw [if_pos hc] at hF
    have hs0 : (f1o 8 - f2 8) * root + f2 8 ≠ 0 := by
      intro h0
      rw [h0] at hc
      norm_num [machEps] at hc
    obtain rfl := (Option.some.inj hF).symm
    simp only [Matrix.dotProduct, Fin.sum_univ_succ, Fin.sum_univ_zero, coeffRow,
      Matrix.cons_val_zero, Matrix.cons_val_one, Matrix.head_cons, Matrix.cons_val_succ,
      finsv1, finsv2, finsv3, finsv4, finsv5, finsv6, finsv7, finsv8] at h1 h2
    simp only [epipolarResidual, Matrix.of_apply, Matrix.cons_val_zero, Matrix.cons_val_one,
      Matrix.head_cons, Matrix.cons_val_two, Matrix.tail_cons]
    field_simp
    linear_combination root * h1 + (1 - root) * h2
  · rw [if_neg hc] at hF
    simp at hF

/-- Every appended model arises from one of the returned roots through the
per-root branch. -/
lemma mem_appendedModels (svdV : Matrix (Fin 9) (Fin 9) ℚ → Matrix (Fin 9) (Fin 9) ℚ)
    (rr : (Fin 4 → ℚ) → List ℚ) (data : ℕ → ℚ) (cols : ℕ) (sample : ℕ → ℕ)
    (F : FMat) (hF : F ∈ appendedModels svdV rr data cols sample) :
    ∃ lam ∈ pipelineRoots svdV rr data cols sample,
      modelFromRoot (basisF1 svdV data cols sample) (basisF2 svdV data cols sample) lam =
        some F := by
  unfold appendedModels estimateModel at hF
  simp only [estimateFromBasis] at hF
  by_cases hcond : ((rr (cubicCoeffs (basisF1 svdV data cols sample)
      (basisF2 svdV data cols sample))).length < 1 ∨
    3 < (rr (cubicCoeffs (basisF1 svdV data cols sample)
      (basisF2 svdV data cols sample))).length)
  · rw [if_pos hcond] at hF
    simp at hF
  · rw [if_neg hcond] at hF
    simp only [List.nil_append] at hF
    exact List.mem_filterMap.mp hF

/-- Claim C2: under the null-space contract for the two extracted columns
(each is annihilated by the coefficient matrix — the exact-arithmetic reading
of "within numerical tolerance"), every appended candidate `F` satisfies
`[x1,y1,1]·F·[x0,y0,1]ᵗ = 0` for each of the 7 sampled correspondences. -/
theorem claim2_epipolar_constraint
    (svdV : Matrix (Fin 9) (Fin 9) ℚ → Matrix (Fin 9) (Fin 9) ℚ)
    (rr : (Fin 4 → ℚ) → List ℚ) (data : ℕ → ℚ) (cols : ℕ) (sample : ℕ → ℕ)
    (h1 : Matrix.mulVec (coefficients data cols sample)
      (basisF1orig svdV data cols sample) = 0)
    (h2 : Matrix.mulVec (coefficients data cols sample)
      (basisF2 svdV data cols sample) = 0) :
    ∀ F ∈ appendedModels svdV rr data cols sample, ∀ i : Fin 7,
      epipolarResidual data cols (sample i) F = 0 := by
  intro F hF i
  obtain ⟨lam, _, hsome⟩ := mem_appendedModels svdV rr data cols sample F hF
  have hrow1 : Matrix.dotProduct (coeffRow data cols (sample i))
      (basisF1orig svdV data cols sample) = 0 := congrFun h1 i
  have hrow2 : Matrix.dotProduct (coeffRow data cols (sample i))
      (basisF2 svdV data cols sample) = 0 := congrFun h2 i
  exact epipolar_zero_of_null data cols (sample i) (basisF1orig svdV data cols sample)
    (basisF2 svdV data cols sample) lam F hsome hrow1 hrow2

set_option maxHeartbeats 1000000 in
set_option maxRecDepth 8192 in
/-- Witness for C2: for the concrete input both null-space hypotheses hold and
the emitted candidate has zero epipolar residual at the first sampled row. -/
theorem claim2_epipolar_constraint_witness :
    epipolarResidual Wdata 4 (Wsample 0)
      (Matrix.of ![![0, 0, 0], ![0, 0, -1], ![0, 1, 1]]) = 0 :=
  claim2_epipolar_constraint Wsvd WrootsOne Wdata 4 Wsample
    (by
      funext i
      fin_cases i <;>
        norm_num [Matrix.mulVec, Matrix.dotProduct, Fin.sum_univ_succ, coefficients,
          coeffRow, basisF1orig, Wsvd, Wg, Wf, Wdata, Wsample, Matrix.of_apply,
          Matrix.cons_val_zero, Matrix.cons_val_one, Matrix.head_cons])
    (by
      funext i
      fin_cases i <;>
        norm_num [Matrix.mulVec, Matrix.dotProduct, Fin.sum_univ_succ, coefficients,
          coeffRow, basisF2, Wsvd, Wg, Wf, Wdata, Wsample, Matrix.of_apply,
          Matrix.cons_val_zero, Matrix.cons_val_one, Matrix.head_cons])
    (Matrix.of ![![0, 0, 0], ![0, 0, -1], ![0, 1, 1]])
    (by
      norm_num +decide [appendedModels, estimateModel, estimateFromBasis, WrootsOne,
        List.filterMap, modelFromRoot, basisF1, basisF1orig, basisF2, Wsvd, Wg, Wf,
        machEps])
    0

set_option maxHeartbeats 1000000 in
set_option maxRecDepth 8192 in
/-- Exact-arithmetic heart of the singularity claim: a candidate built from a
root of the cubic has determinant exactly zero. -/
lemma det_modelFromRoot_zero (f1 f2 : Fin 9 → ℚ) (root : ℚ) (F : FMat)
    (hF : modelFromRoot f1 f2 root = some F)
    (hcubic : evalCubic (cubicCoeffs f1 f2) root = 0) :
    F.det = 0 := by
  have hres := (det_reshape_affine f1 f2 root).trans hcubic
  simp only [modelFromRoot] at hF
  by_cases hc : machEps < |f1 8 * root + f2 8|
  · rw [if_pos hc] at hF
    have hs0 : f1 8 * root + f2 8 ≠ 0 := by
      intro h0
      rw [h0] at hc
      norm_num [machEps] at hc
    have hmat : F = (1 / (f1 8 * root + f2 8)) •
        reshape3x3 (fun i => root * f1 i + f2 i) := by
      rw [← Option.some.inj hF]
      funext i j
      fin_cases i <;> fin_cases j <;>
        · simp only [Matrix.smul_apply, Matrix.of_apply, reshape3x3, smul_eq_mul,
            Matrix.cons_val_zero, Matrix.cons_val_one, Matrix.head_cons,
            Matrix.cons_val_two, Matrix.tail_cons, Matrix.cons_val_fin_one]
          field_simp
          ring
    rw [hmat, Matrix.det_smul, hres, mul_zero]
  · rw [if_neg hc] at hF
    simp at hF

/-- Claim C8: when every root handed back by the root finder is a true root of
the computed cubic (the exact-arithmetic reading of the claim), every appended
candidate has determinant exactly zero — in exact arithmetic
`det F = (1/s³)·det(λ·f1 + f2 reshaped) = 0`. -/
theorem claim8_candidate_singular
    (svdV : Matrix (Fin 9) (Fin 9) ℚ → Matrix (Fin 9) (Fin 9) ℚ)
    (rr : (Fin 4 → ℚ) → List ℚ) (data : ℕ → ℚ) (cols : ℕ) (sample : ℕ → ℕ)
    (hroots : ∀ lam ∈ pipelineRoots svdV rr data cols sample,
      evalCubic (cubicCoeffs (basisF1 svdV data cols sample)
        (basisF2 svdV data cols sample)) lam = 0) :
    ∀ F ∈ appendedModels svdV rr data cols sample, F.det = 0 := by
  intro F hF
  obtain ⟨lam, hmem, hsome⟩ := mem_appendedModels svdV rr data cols sample F hF
  exact det_modelFromRoot_zero _ _ lam F hsome (hroots lam hmem)

set_option maxHeartbeats 1000000 in
set_option maxRecDepth 8192 in
/-- Witness for C8: for the concrete input the root finder returns a true root
of the (identically zero) cubic and the emitted candidate is singular. -/
theorem claim8_candidate_singular_witness :
    (Matrix.of ![![0, 0, 0], ![0, 0, -1], ![0, 1, 1]] : FMat).det = 0 :=
  claim8_candidate_singular Wsvd WrootsOne Wdata 4 Wsample
    (by
      intro lam hm
      simp only [pipelineRoots, WrootsOne, List.mem_singleton] at hm
      subst hm
      norm_num +decide [evalCubic, cubicCoeffs, basisF1, basisF2, basisF1orig, Wsvd,
        Wg, Wf, vec4at0, vec4at1, vec4at2, vec4at3])
    (Matrix.of ![![0, 0, 0], ![0, 0, -1], ![0, 1, 1]])
    (by
      norm_num +decide [appendedModels, estimateModel, estimateFromBasis, WrootsOne,
        List.filterMap, modelFromRoot, basisF1, basisF1orig, basisF2, Wsvd, Wg, Wf,
        machEps])

end SevenPoint
